import Mathlib

/-!
Verification development for RAFT's rotor module (`raft/raft_rotor.py`).

The module's algorithmic core is `Rotor.calcAeroServoContributions`, which
linearizes rotor aerodynamics coupled with a simplified pitch controller over a
frequency sweep, together with `Rotor.calcAeroContributions` (rigid, uncontrolled
contributions) and `Rotor.setControlGains` (gain-schedule interpolation).

The embedding uses exact rational arithmetic (`ℚ`) in place of IEEE floats, with
a small computable complex-pair type `Cq` standing in for Python's `complex`.
Division by zero in `ℚ` yields the junk value 0; the separate guard
`Rotor.servoEntryFinite` records exactly when the floating-point evaluation of
the loop body performs no division by zero (and hence produces finite values
from finite inputs).
-/

/-- Computable complex numbers over ℚ, modelling Python's `complex` values as
they appear in `calcAeroServoContributions`. -/
structure Cq where
  re : ℚ
  im : ℚ
deriving DecidableEq, Repr

namespace Cq

/-- Embedding of a real (rational) scalar into `Cq`, modelling Python's
implicit promotion of a float to a complex number. -/
def ofRat (q : ℚ) : Cq := ⟨q, 0⟩

instance : Add Cq := ⟨fun a b => ⟨a.re + b.re, a.im + b.im⟩⟩
instance : Sub Cq := ⟨fun a b => ⟨a.re - b.re, a.im - b.im⟩⟩
instance : Neg Cq := ⟨fun a => ⟨-a.re, -a.im⟩⟩
instance : Mul Cq := ⟨fun a b => ⟨a.re * b.re - a.im * b.im, a.re * b.im + a.im * b.re⟩⟩

/-- Complex division, componentwise over ℚ (junk value when the denominator is
zero, where IEEE arithmetic would produce inf/NaN). -/
instance : Div Cq :=
  ⟨fun a b =>
    ⟨(a.re * b.re + a.im * b.im) / (b.re * b.re + b.im * b.im),
     (a.im * b.re - a.re * b.im) / (b.re * b.re + b.im * b.im)⟩⟩

instance : Zero Cq := ⟨⟨0, 0⟩⟩

@[simp] theorem add_re (a b : Cq) : (a + b).re = a.re + b.re := rfl
@[simp] theorem add_im (a b : Cq) : (a + b).im = a.im + b.im := rfl
@[simp] theorem sub_re (a b : Cq) : (a - b).re = a.re - b.re := rfl
@[simp] theorem sub_im (a b : Cq) : (a - b).im = a.im - b.im := rfl
@[simp] theorem neg_re (a : Cq) : (-a).re = -a.re := rfl
@[simp] theorem neg_im (a : Cq) : (-a).im = -a.im := rfl
@[simp] theorem mul_re (a b : Cq) : (a * b).re = a.re * b.re - a.im * b.im := rfl
@[simp] theorem mul_im (a b : Cq) : (a * b).im = a.re * b.im + a.im * b.re := rfl
@[simp] theorem div_re (a b : Cq) :
    (a / b).re = (a.re * b.re + a.im * b.im) / (b.re * b.re + b.im * b.im) := rfl
@[simp] theorem div_im (a b : Cq) :
    (a / b).im = (a.im * b.re - a.re * b.im) / (b.re * b.re + b.im * b.im) := rfl
@[simp] theorem ofRat_re (q : ℚ) : (ofRat q).re = q := rfl
@[simp] theorem ofRat_im (q : ℚ) : (ofRat q).im = 0 := rfl
@[simp] theorem zero_re : (0 : Cq).re = 0 := rfl
@[simp] theorem zero_im : (0 : Cq).im = 0 := rfl

theorem ext2 (a b : Cq) (h1 : a.re = b.re) (h2 : a.im = b.im) : a = b := by
  cases a; cases b; cases h1; cases h2; rfl

end Cq

/-- Python's `1j`. -/
def Iq : Cq := ⟨0, 1⟩

@[simp] theorem Iq_re : Iq.re = 0 := rfl
@[simp] theorem Iq_im : Iq.im = 1 := rfl

/-- Module constant `rad2deg = 57.2958` from `raft_rotor.py`. -/
def rad2deg : ℚ := 286479 / 5000

/-- Module constant `rpm2radps = 0.1047` from `raft_rotor.py`. -/
def rpm2radps : ℚ := 1047 / 10000

/-- Hub height constant `Hhub = 150.` assigned inside both
`calcAeroContributions` and `calcAeroServoContributions`. -/
def Hhub : ℚ := 150

/-- Inflow wind speed constant `Uinf = 14.` assigned inside
`calcAeroContributions` and used there as the interpolation target. -/
def Uinf : ℚ := 14

/-- Shallow embedding of `numpy.interp(x, xp, fp)` (default edge behavior):
piecewise-linear interpolation over the nodes `xp` (assumed increasing, as
numpy does), clamping to `fp`'s first/last value outside the domain.
Mismatched or empty inputs (an error in numpy) yield the junk value 0. -/
def interp (x : ℚ) : List ℚ → List ℚ → ℚ
  | [_], f0 :: _ => f0
  | x0 :: x1 :: xr, f0 :: f1 :: fr =>
      if x < x0 then f0
      else if x ≤ x1 then f0 + (f1 - f0) * (x - x0) / (x1 - x0)
      else interp x (x1 :: xr) (f1 :: fr)
  | _, _ => 0

/-- Shallow embedding of `numpy.interp(x, xp, fp, left=0, right=0)` as used in
`setControlGains`: piecewise-linear interpolation returning 0 strictly outside
the node domain. -/
def interpZ (x : ℚ) : List ℚ → List ℚ → ℚ
  | [x0], f0 :: _ => if x < x0 then 0 else if x = x0 then f0 else 0
  | x0 :: x1 :: xr, f0 :: f1 :: fr =>
      if x < x0 then 0
      else if x ≤ x1 then f0 + (f1 - f0) * (x - x0) / (x1 - x0)
      else interpZ x (x1 :: xr) (f1 :: fr)
  | _, _ => 0

/-- The rotor state consumed by the linearization methods: the frequency array
`w`, the current wind speed selector `V`, the operating schedule (`Uhub`,
`pitch_deg`), drivetrain inertia, control gains, the six consumed entries of
the load-derivative table `J`, and the steady hub force/moment outputs. -/
structure Rotor where
  w : List ℚ
  V : ℚ
  Uhub : List ℚ
  pitch_deg : List ℚ
  I_drivetrain : ℚ
  kp_0 : List ℚ
  ki_0 : List ℚ
  k_float : ℚ
  J_T_Uhub : List ℚ
  J_T_Omega_rpm : List ℚ
  J_T_pitch_deg : List ℚ
  J_Q_Uhub : List ℚ
  J_Q_Omega_rpm : List ℚ
  J_Q_pitch_deg : List ℚ
  outputs_Fhub : List ℚ
  outputs_Mhub : List ℚ
deriving DecidableEq, Repr

namespace Rotor

/-- `dT_dU  = np.interp(self.V, self.Uhub, self.J["T","Uhub"])`. -/
def dT_dU (r : Rotor) : ℚ := interp r.V r.Uhub r.J_T_Uhub

/-- `dT_dOm = np.interp(self.V, self.Uhub, self.J["T","Omega_rpm"]) / rpm2radps`. -/
def dT_dOm (r : Rotor) : ℚ := interp r.V r.Uhub r.J_T_Omega_rpm / rpm2radps

/-- `dT_dPi = np.interp(self.V, self.Uhub, self.J["T","pitch_deg"]) * rad2deg`. -/
def dT_dPi (r : Rotor) : ℚ := interp r.V r.Uhub r.J_T_pitch_deg * rad2deg

/-- `dQ_dU  = np.interp(self.V, self.Uhub, self.J["Q","Uhub"])`. -/
def dQ_dU (r : Rotor) : ℚ := interp r.V r.Uhub r.J_Q_Uhub

/-- `dQ_dOm = np.interp(self.V, self.Uhub, self.J["Q","Omega_rpm"]) / rpm2radps`. -/
def dQ_dOm (r : Rotor) : ℚ := interp r.V r.Uhub r.J_Q_Omega_rpm / rpm2radps

/-- `dQ_dPi = np.interp(self.V, self.Uhub, self.J["Q","pitch_deg"]) * rad2deg`. -/
def dQ_dPi (r : Rotor) : ℚ := interp r.V r.Uhub r.J_Q_pitch_deg * rad2deg

/-- `kp_U = -np.interp(self.V, self.Uhub, self.kp_0)` (ROSCO sign flip). -/
def kp_U (r : Rotor) : ℚ := -interp r.V r.Uhub r.kp_0

/-- `ki_U = -np.interp(self.V, self.Uhub, self.ki_0)` (ROSCO sign flip). -/
def ki_U (r : Rotor) : ℚ := -interp r.V r.Uhub r.ki_0

/-- Loop-body denominator
`D[iw] = self.I_drivetrain * omega**2 + (dQ_dOm + kp_U * dQ_dPi) * 1j * omega + ki_U * dQ_dPi`.
The first and last summands are real scalars in Python, promoted on addition. -/
def Dc (r : Rotor) (ω : ℚ) : Cq :=
  Cq.ofRat (r.I_drivetrain * ω ^ 2)
    + Cq.ofRat (r.dQ_dOm + r.kp_U * r.dQ_dPi) * Iq * Cq.ofRat ω
    + Cq.ofRat (r.ki_U * r.dQ_dPi)

/-- Control transfer function
`C[iw] = 1j * omega * (dQ_dU - self.k_float * dQ_dPi / Hhub) / D[iw]`. -/
def Cc (r : Rotor) (ω : ℚ) : Cq :=
  Iq * Cq.ofRat ω * Cq.ofRat (r.dQ_dU - r.k_float * r.dQ_dPi / Hhub) / r.Dc ω

/-- Complex aero load response
`T = 1j*omega*(dT_dU - k_float*dT_dPi/Hhub) - ((dT_dOm + kp_U*dT_dPi)*1j*omega + ki_U*dT_dPi) * C[iw]`. -/
def Tc (r : Rotor) (ω : ℚ) : Cq :=
  Iq * Cq.ofRat ω * Cq.ofRat (r.dT_dU - r.k_float * r.dT_dPi / Hhub)
    - (Cq.ofRat (r.dT_dOm + r.kp_U * r.dT_dPi) * Iq * Cq.ofRat ω
        + Cq.ofRat (r.ki_U * r.dT_dPi)) * r.Cc ω

/-- `a_aer[iw] = -(1/omega**2) * np.real(T)`. -/
def a_aer (r : Rotor) (ω : ℚ) : ℚ := -(1 / ω ^ 2) * (r.Tc ω).re

/-- `b_aer[iw] = (1/omega) * np.imag(T)`. -/
def b_aer (r : Rotor) (ω : ℚ) : ℚ := (1 / ω) * (r.Tc ω).im

/-- Characteristic-equation coefficients
`p = np.array([-self.I_drivetrain, (dQ_dOm + kp_U * dQ_dPi), ki_U * dQ_dPi])`. -/
def charCoeffs (r : Rotor) : List ℚ :=
  [-r.I_drivetrain, r.dQ_dOm + r.kp_U * r.dQ_dPi, r.ki_U * r.dQ_dPi]

/-- Shallow embedding of `Rotor.calcAeroServoContributions(self, nw=0, U_amplitude=[])`:
for each frequency in `self.w`, in order, evaluate the loop body and collect
`a_aer` and `b_aer`.  The parameters `nw` and `U_amplitude` appear in the
signature but are only referenced from commented-out code. -/
def calcAeroServoContributions (r : Rotor) (nw : ℕ) (U_amplitude : List ℚ) :
    List ℚ × List ℚ :=
  (r.w.map r.a_aer, r.w.map r.b_aer)

/-- Variant of `calcAeroServoContributions` that also materializes the
diagnostic root computation `r = np.roots(p)`.  `np.roots` has irrational
outputs, so it is abstracted as an arbitrary function of the coefficient
list; the code never reads `r` again. -/
def calcAeroServoWithDiag (r : Rotor) (rootFinder : List ℚ → List Cq)
    (nw : ℕ) (U_amplitude : List ℚ) : List Cq × List ℚ × List ℚ :=
  let p := r.charCoeffs
  let roots := rootFinder p
  (roots, r.w.map r.a_aer, r.w.map r.b_aer)

/-- IEEE-semantics guard: evaluating the loop body of
`calcAeroServoContributions` at frequency `ω` performs no division by zero —
and hence returns finite `a_aer`, `b_aer` from finite inputs — precisely when
`ω ≠ 0` (the `1/omega**2` and `1/omega` factors) and `D(ω) ≠ 0` (the complex
division defining `C`). -/
def servoEntryFinite (r : Rotor) (ω : ℚ) : Bool :=
  decide (ω ≠ 0) && decide (r.Dc ω ≠ 0)

/-- A 6×`n` zero matrix, `np.zeros([6, n])`, as rows. -/
def zerosMat (n : ℕ) : List (List ℚ) := List.replicate 6 (List.replicate n 0)

/-- Shallow embedding of `Rotor.calcAeroContributions(self, nw=0, U_amplitude=[])`.
`A_aero`, `B_aero`, `C_aero` start as `np.zeros([6,6])`; the only write is
`B_aero[0,0] += dT_dU` with `dT_dU` interpolated at the fixed inflow speed
`Uinf = 14`.  The loop `F_aero[0,i] = U_amplitude[i]*dT_dU` fills row 0 of the
6×nw zero matrix `F_aero`.  `F_aero0 = np.hstack((self.outputs["Fhub"],
self.outputs["Mhub"]))`.  Return order: `A_aero, B_aero, C_aero, F_aero0, F_aero`. -/
def calcAeroContributions (r : Rotor) (nw : ℕ) (U_amplitude : List ℚ) :
    List (List ℚ) × List (List ℚ) × List (List ℚ) × List ℚ × List (List ℚ) :=
  let dT_dU0 : ℚ := interp Uinf r.Uhub r.J_T_Uhub
  let A_aero := zerosMat 6
  let B_aero := ((0 + dT_dU0) :: List.replicate 5 0) :: List.replicate 5 (List.replicate 6 0)
  let C_aero := zerosMat 6
  let F_aero := ((List.range nw).map (fun i => U_amplitude.getD i 0 * dT_dU0))
      :: List.replicate 5 (List.replicate nw 0)
  let F_aero0 := r.outputs_Fhub ++ r.outputs_Mhub
  (A_aero, B_aero, C_aero, F_aero0, F_aero)

/-- Shallow embedding of the scheduled-gain branch of
`Rotor.setControlGains` (the `IEA-15-240-RWT` branch):
`pc_angles = GS_Angles * rad2deg;`
`kp_0 = np.interp(pitch_deg, pc_angles, GS_Kp, left=0, right=0)` (and `ki_0`
likewise), `k_float = 9`. -/
def setControlGains15 (r : Rotor) (GS_Angles GS_Kp GS_Ki : List ℚ) : Rotor :=
  let pc_angles := GS_Angles.map (fun a => a * rad2deg)
  { r with
      kp_0 := r.pitch_deg.map (fun p => interpZ p pc_angles GS_Kp)
      ki_0 := r.pitch_deg.map (fun p => interpZ p pc_angles GS_Ki)
      k_float := 9 }

/-- Spec-side denominator, transcribed from the spec text
`D(ω) = I_drivetrain·ω² + (dQ/dΩ + Kp·dQ/dθ)·i·ω + Ki·dQ/dθ`, with the
products taken in complex arithmetic. -/
def specD (r : Rotor) (ω : ℚ) : Cq :=
  Cq.ofRat r.I_drivetrain * (Cq.ofRat ω * Cq.ofRat ω)
    + Cq.ofRat (r.dQ_dOm + r.kp_U * r.dQ_dPi) * (Iq * Cq.ofRat ω)
    + Cq.ofRat (r.ki_U * r.dQ_dPi)

/-- Spec-side control transfer function
`C(ω) = i·ω·(dQ/dU − k_float·dQ/dθ/Hhub) / D(ω)`. -/
def specC (r : Rotor) (ω : ℚ) : Cq :=
  Iq * Cq.ofRat ω * Cq.ofRat (r.dQ_dU - r.k_float * r.dQ_dPi / Hhub) / r.specD ω

/-- Spec-side aero load response
`T(ω) = i·ω·(dT/dU − k_float·dT/dθ/Hhub) − [(dT/dΩ + Kp·dT/dθ)·i·ω + Ki·dT/dθ]·C(ω)`. -/
def specT (r : Rotor) (ω : ℚ) : Cq :=
  Iq * Cq.ofRat ω * Cq.ofRat (r.dT_dU - r.k_float * r.dT_dPi / Hhub)
    - (Cq.ofRat (r.dT_dOm + r.kp_U * r.dT_dPi) * (Iq * Cq.ofRat ω)
        + Cq.ofRat (r.ki_U * r.dT_dPi)) * r.specC ω

end Rotor

/-- A minimal one-point rotor configuration: unit derivative tables,
zero gains, zero float feedback, unit inertia, frequency array `[1]`. -/
def rEx : Rotor :=
  { w := [1], V := 1, Uhub := [1], pitch_deg := [0], I_drivetrain := 1
    kp_0 := [0], ki_0 := [0], k_float := 0
    J_T_Uhub := [1], J_T_Omega_rpm := [rpm2radps], J_T_pitch_deg := [0]
    J_Q_Uhub := [1], J_Q_Omega_rpm := [rpm2radps], J_Q_pitch_deg := [0]
    outputs_Fhub := [1, 2, 3], outputs_Mhub := [4, 5, 6] }

/-- `rEx` with the thrust–rotor-speed derivative zeroed (`dT/dΩ = 0`),
so the controlled torque path cannot feed back into thrust. -/
def rOpen : Rotor :=
  { rEx with J_T_Omega_rpm := [0] }

/-- A one-point rotor configuration tuned so that the transfer-function
denominator vanishes at the (strictly positive) frequency `ω = 1`:
`ki_U = 1`, `dQ_dPi = -1`, `I_drivetrain = 1`, `dQ_dOm = kp_U = 0`, hence
`D(1) = 1·1² + 0·i + 1·(-1) = 0`. -/
def rSing : Rotor :=
  { rEx with ki_0 := [-1], J_Q_Omega_rpm := [0]
             J_Q_pitch_deg := [-(5000 / 286479)] }

/-- `rEx` with a zero entry in the frequency array. -/
def rZeroW : Rotor :=
  { rEx with w := [0, 1] }

/-- Rotor with the spec's end-to-end schedule `U = [10, 14, 18]`,
`dT/dU = [500, 600, 700]`, and a wind speed selector below the schedule. -/
def rSched : Rotor :=
  { w := [1], V := 5, Uhub := [10, 14, 18], pitch_deg := [0, 5, 30]
    I_drivetrain := 1
    kp_0 := [1, 2, 3], ki_0 := [4, 5, 6], k_float := 0
    J_T_Uhub := [500, 600, 700], J_T_Omega_rpm := [1, 2, 3]
    J_T_pitch_deg := [4, 5, 6]
    J_Q_Uhub := [7, 8, 9], J_Q_Omega_rpm := [10, 11, 12]
    J_Q_pitch_deg := [13, 14, 15]
    outputs_Fhub := [1, 2, 3], outputs_Mhub := [4, 5, 6] }

/-- `rSched` with the wind speed selector above the schedule. -/
def rSchedHi : Rotor :=
  { rSched with V := 30 }

/-- `rSched` with the wind speed selector exactly at the middle schedule node. -/
def rSchedAt : Rotor :=
  { rSched with V := 14 }

/-- Rotor matching the spec's characteristic-equation scenario:
`I_drivetrain = 3.2e8`, interpolated `dQ/dΩ = 1000`, `Kp = 0.1`,
`dQ/dθ = -500`, `Ki = 0.01`. -/
def rChar : Rotor :=
  { rEx with V := 14, Uhub := [14], I_drivetrain := 320000000
             kp_0 := [-(1 / 10)], ki_0 := [-(1 / 100)]
             J_Q_Omega_rpm := [1047 / 10]
             J_Q_pitch_deg := [-(2500000 / 286479)] }

/- ### Interpolation lemmas -/

theorem interp_of_below (x : ℚ) (xs fs : List ℚ) (hlen : fs.length = xs.length)
    (hne : xs ≠ []) (hmem : ∀ y ∈ xs, x < y) : interp x xs fs = fs.headD 0 := by
  cases xs with
  | nil => exact absurd rfl hne
  | cons x0 xr =>
    cases fs with
    | nil => simp at hlen
    | cons f0 fr =>
      cases xr with
      | nil => rfl
      | cons x1 xr2 =>
        cases fr with
        | nil => simp at hlen
        | cons f1 fr2 =>
          have hx : x < x0 := hmem x0 (by simp)
          simp [interp, hx]

theorem interp_of_above (x : ℚ) (xs fs : List ℚ) (hlen : fs.length = xs.length)
    (hne : xs ≠ []) (hmem : ∀ y ∈ xs, y < x) : interp x xs fs = fs.getLastD 0 := by
  induction xs generalizing fs with
  | nil => exact absurd rfl hne
  | cons x0 xr ih =>
    cases fs with
    | nil => simp at hlen
    | cons f0 fr =>
      cases xr with
      | nil =>
        cases fr with
        | nil => rfl
        | cons f1 fr2 => simp at hlen
      | cons x1 xr2 =>
        cases fr with
        | nil => simp at hlen
        | cons f1 fr2 =>
          have hx0 : x0 < x := hmem x0 (by simp)
          have hx1 : x1 < x := hmem x1 (by simp)
          have hstep : interp x (x0 :: x1 :: xr2) (f0 :: f1 :: fr2)
              = interp x (x1 :: xr2) (f1 :: fr2) := by
            simp [interp, if_neg (not_lt.mpr (le_of_lt hx0)), if_neg (not_le.mpr hx1)]
          rw [hstep,
            ih (f1 :: fr2) (by simpa using hlen) (by simp)
              (fun y hy => hmem y (List.mem_cons_of_mem _ hy)),
            List.getLastD_cons, List.getLastD_cons, List.getLastD_cons]

theorem interp_step (x x0 x1 f0 f1 : ℚ) (xr fr : List ℚ)
    (h0 : x0 ≤ x) (h1 : x1 < x) :
    interp x (x0 :: x1 :: xr) (f0 :: f1 :: fr) = interp x (x1 :: xr) (f1 :: fr) := by
  simp [interp, if_neg (not_lt.mpr h0), if_neg (not_le.mpr h1)]

theorem interp_at_node (xs fs : List ℚ) (hlen : fs.length = xs.length)
    (hsort : List.Pairwise (· < ·) xs) :
    ∀ (j : ℕ) (hj : j < xs.length) (hjf : j < fs.length),
      interp (xs.get ⟨j, hj⟩) xs fs = fs.get ⟨j, hjf⟩ := by
  induction xs generalizing fs with
  | nil => intro j hj _; exact absurd hj (by simp)
  | cons x0 xr ih =>
    cases fs with
    | nil => simp at hlen
    | cons f0 fr =>
      intro j hj hjf
      cases j with
      | zero =>
        cases xr with
        | nil => rfl
        | cons x1 xr2 =>
          cases fr with
          | nil => simp at hlen
          | cons f1 fr2 =>
            have h01 : x0 < x1 := (List.pairwise_cons.mp hsort).1 x1 (by simp)
            show interp x0 (x0 :: x1 :: xr2) (f0 :: f1 :: fr2) = f0
            simp [interp, if_neg (lt_irrefl x0), if_pos (le_of_lt h01)]
      | succ k =>
        cases xr with
        | nil => exact absurd hj (by simp)
        | cons x1 xr2 =>
          cases fr with
          | nil => simp at hlen
          | cons f1 fr2 =>
            obtain ⟨h0all, htail⟩ := List.pairwise_cons.mp hsort
            have hk : k < (x1 :: xr2).length := by simpa using hj
            have hkf : k < (f1 :: fr2).length := by simpa using hjf
            have hx0 : x0 < (x1 :: xr2).get ⟨k, hk⟩ :=
              h0all _ (List.get_mem _ _ _)
            cases k with
            | zero =>
              have h01 : x0 < x1 := h0all x1 (by simp)
              have hne10 : x1 - x0 ≠ 0 := sub_ne_zero.mpr (ne_of_gt h01)
              show interp x1 (x0 :: x1 :: xr2) (f0 :: f1 :: fr2) = f1
              rw [show interp x1 (x0 :: x1 :: xr2) (f0 :: f1 :: fr2)
                  = if x1 < x0 then f0 else if x1 ≤ x1 then
                      f0 + (f1 - f0) * (x1 - x0) / (x1 - x0)
                    else interp x1 (x1 :: xr2) (f1 :: fr2) from rfl,
                if_neg (not_lt.mpr (le_of_lt h01)), if_pos (le_refl x1),
                mul_div_assoc, div_self hne10, mul_one]
              ring
            | succ m =>
              have hm : m < xr2.length := by simpa using hk
              have hx1 : x1 < (x1 :: xr2).get ⟨m + 1, hk⟩ :=
                (List.pairwise_cons.mp htail).1 _ (List.get_mem xr2 m hm)
              exact (interp_step _ x0 x1 f0 f1 xr2 fr2 (le_of_lt hx0) hx1).trans
                (ih (f1 :: fr2) (by simpa using hlen) htail (m + 1) hk hkf)

theorem interp_at_node_getD (xs fs : List ℚ) (hlen : fs.length = xs.length)
    (hsort : List.Pairwise (· < ·) xs) (j : ℕ) (hj : j < xs.length) :
    interp (xs.getD j 0) xs fs = fs.getD j 0 := by
  have hjf : j < fs.length := by rw [hlen]; exact hj
  have h1 : xs.getD j 0 = xs.get ⟨j, hj⟩ := by
    simp [List.getD_eq_getElem?_getD, List.getElem?_eq_getElem hj, List.get_eq_getElem]
  have h2 : fs.getD j 0 = fs.get ⟨j, hjf⟩ := by
    simp [List.getD_eq_getElem?_getD, List.getElem?_eq_getElem hjf, List.get_eq_getElem]
  rw [h1, h2]
  exact interp_at_node xs fs hlen hsort j hj hjf

theorem sorted_head_le (x0 : ℚ) (xr : List ℚ)
    (hs : List.Pairwise (· < ·) (x0 :: xr)) : ∀ y ∈ x0 :: xr, x0 ≤ y := by
  intro y hy
  rcases List.mem_cons.mp hy with h | h
  · exact h ▸ le_refl x0
  · exact le_of_lt ((List.pairwise_cons.mp hs).1 y h)

theorem sorted_le_getLastD (xs : List ℚ) (hs : List.Pairwise (· < ·) xs) :
    ∀ y ∈ xs, y ≤ xs.getLastD 0 := by
  induction xs with
  | nil => intro y hy; simp at hy
  | cons x0 xr ih =>
    intro y hy
    obtain ⟨h0, htail⟩ := List.pairwise_cons.mp hs
    cases xr with
    | nil =>
      simp at hy
      subst hy
      rfl
    | cons x1 xr2 =>
      rw [List.getLastD_cons, List.getLastD_cons]
      have h2 : (x1 :: xr2).getLastD 0 = xr2.getLastD x1 := List.getLastD_cons 0 x1 xr2
      rcases List.mem_cons.mp hy with h | h
      · subst h
        have hx1 := ih htail x1 (by simp)
        rw [h2] at hx1
        exact le_of_lt (lt_of_lt_of_le (h0 x1 (by simp)) hx1)
      · have hy2 := ih htail y h
        rw [h2] at hy2
        exact hy2

theorem interpZ_of_below (x : ℚ) (xs fs : List ℚ)
    (hmem : ∀ y ∈ xs, x < y) : interpZ x xs fs = 0 := by
  cases xs with
  | nil => rfl
  | cons x0 xr =>
    cases fs with
    | nil =>
      cases xr with
      | nil => rfl
      | cons x1 xr2 => rfl
    | cons f0 fr =>
      cases xr with
      | nil => simp [interpZ, hmem x0 (by simp)]
      | cons x1 xr2 =>
        cases fr with
        | nil => rfl
        | cons f1 fr2 => simp [interpZ, hmem x0 (by simp)]

theorem interpZ_of_above (x : ℚ) (xs fs : List ℚ)
    (hmem : ∀ y ∈ xs, y < x) : interpZ x xs fs = 0 := by
  induction xs generalizing fs with
  | nil => rfl
  | cons x0 xr ih =>
    cases fs with
    | nil =>
      cases xr with
      | nil => rfl
      | cons x1 xr2 => rfl
    | cons f0 fr =>
      cases xr with
      | nil =>
        have hx : x0 < x := hmem x0 (by simp)
        simp [interpZ, if_neg (not_lt.mpr (le_of_lt hx)), if_neg (ne_of_gt hx)]
      | cons x1 xr2 =>
        cases fr with
        | nil => rfl
        | cons f1 fr2 =>
          have hx0 : x0 < x := hmem x0 (by simp)
          have hx1 : x1 < x := hmem x1 (by simp)
          have hstep : interpZ x (x0 :: x1 :: xr2) (f0 :: f1 :: fr2)
              = interpZ x (x1 :: xr2) (f1 :: fr2) := by
            simp [interpZ, if_neg (not_lt.mpr (le_of_lt hx0)), if_neg (not_le.mpr hx1)]
          rw [hstep]
          exact ih (f1 :: fr2) (fun y hy => hmem y (List.mem_cons_of_mem _ hy))

/- ### Equality of the loop-body formulas with the spec's transfer-function formulas -/

theorem Rotor.Dc_eq_specD (r : Rotor) (ω : ℚ) : r.Dc ω = r.specD ω := by
  apply Cq.ext2 <;>
    simp only [Rotor.Dc, Rotor.specD, Cq.add_re, Cq.add_im, Cq.mul_re, Cq.mul_im,
      Cq.ofRat_re, Cq.ofRat_im, Iq_re, Iq_im] <;>
    ring

theorem Rotor.Cc_eq_specC (r : Rotor) (ω : ℚ) : r.Cc ω = r.specC ω := by
  unfold Rotor.Cc Rotor.specC
  rw [Rotor.Dc_eq_specD]

theorem Rotor.Tc_eq_specT (r : Rotor) (ω : ℚ) : r.Tc ω = r.specT ω := by
  have hC := Rotor.Cc_eq_specC r ω
  apply Cq.ext2 <;>
    simp only [Rotor.Tc, Rotor.specT, hC, Cq.sub_re, Cq.sub_im, Cq.add_re,
      Cq.add_im, Cq.mul_re, Cq.mul_im, Cq.ofRat_re, Cq.ofRat_im, Iq_re, Iq_im] <;>
    ring

/- ### Claim theorems -/

/-- C1: for every frequency array of strictly positive entries,
`calcAeroServoContributions` returns two real arrays with one entry per input
frequency in input order, whose `i`-th entries are `-Re(T(ω))/ω²` and
`Im(T(ω))/ω` at `ω = w[i]`, where `T` is evaluated with complex arithmetic
through `D(ω) = I·ω² + (dQ/dΩ + Kp·dQ/dθ)·i·ω + Ki·dQ/dθ`,
`C(ω) = i·ω·(dQ/dU − k_float·dQ/dθ/Hhub)/D(ω)`, and
`T(ω) = i·ω·(dT/dU − k_float·dT/dθ/Hhub) − ((dT/dΩ + Kp·dT/dθ)·i·ω + Ki·dT/dθ)·C(ω)`. -/
theorem servo_formulas_match_spec (r : Rotor) (nw : ℕ) (amp : List ℚ)
    (hw : ∀ x ∈ r.w, 0 < x) (i : ℕ) (hi : i < r.w.length) :
    (r.calcAeroServoContributions nw amp).1.length = r.w.length ∧
    (r.calcAeroServoContributions nw amp).2.length = r.w.length ∧
    (r.calcAeroServoContributions nw amp).1.getD i 0
      = -(r.specT (r.w.getD i 0)).re / (r.w.getD i 0) ^ 2 ∧
    (r.calcAeroServoContributions nw amp).2.getD i 0
      = (r.specT (r.w.getD i 0)).im / (r.w.getD i 0) := by
  refine ⟨by simp [Rotor.calcAeroServoContributions],
    by simp [Rotor.calcAeroServoContributions], ?_, ?_⟩
  · simp [Rotor.calcAeroServoContributions, List.getElem?_eq_getElem hi]
    rw [Rotor.a_aer, Rotor.Tc_eq_specT]
    ring
  · simp [Rotor.calcAeroServoContributions, List.getElem?_eq_getElem hi]
    rw [Rotor.b_aer, Rotor.Tc_eq_specT]
    ring

/-- Witness for C1 at the concrete rotor `rEx`, frequency array `[1]`. -/
theorem servo_formulas_match_spec_witness :
    (∀ x ∈ rEx.w, (0:ℚ) < x) ∧ 0 < rEx.w.length ∧
    ((rEx.calcAeroServoContributions 0 []).1.length = rEx.w.length ∧
     (rEx.calcAeroServoContributions 0 []).2.length = rEx.w.length ∧
     (rEx.calcAeroServoContributions 0 []).1.getD 0 0
       = -(rEx.specT (rEx.w.getD 0 0)).re / (rEx.w.getD 0 0) ^ 2 ∧
     (rEx.calcAeroServoContributions 0 []).2.getD 0 0
       = (rEx.specT (rEx.w.getD 0 0)).im / (rEx.w.getD 0 0)) :=
  ⟨by norm_num [rEx], by norm_num [rEx],
    servo_formulas_match_spec rEx 0 [] (by norm_num [rEx]) 0 (by norm_num [rEx])⟩

/-- C10: the returned pair of `calcAeroServoContributions` does not depend on
the `nw` and `U_amplitude` parameters, and each array has the length of the
rotor frequency array. -/
theorem servo_independent_of_excitation_args (r : Rotor) (nw1 nw2 : ℕ)
    (amp1 amp2 : List ℚ) :
    r.calcAeroServoContributions nw1 amp1 = r.calcAeroServoContributions nw2 amp2 ∧
    (r.calcAeroServoContributions nw1 amp1).1.length = r.w.length ∧
    (r.calcAeroServoContributions nw1 amp1).2.length = r.w.length :=
  ⟨rfl, by simp [Rotor.calcAeroServoContributions],
    by simp [Rotor.calcAeroServoContributions]⟩

/-- C7: the characteristic-equation coefficients are
`[-I_drivetrain, dQ/dΩ + Kp·dQ/dθ, Ki·dQ/dθ]` (with the spec's concrete
scenario giving `[-3.2e8, 950, -5]`), and the diagnostic root computation has
no effect on the returned arrays. -/
theorem char_coeffs_diagnostic_only (r : Rotor) (rootFinder : List ℚ → List Cq)
    (nw : ℕ) (amp : List ℚ) :
    r.charCoeffs
      = [-r.I_drivetrain, r.dQ_dOm + r.kp_U * r.dQ_dPi, r.ki_U * r.dQ_dPi] ∧
    (r.calcAeroServoWithDiag rootFinder nw amp).2
      = r.calcAeroServoContributions nw amp ∧
    rChar.charCoeffs = [-320000000, 950, -5] := by
  refine ⟨rfl, rfl, ?_⟩
  norm_num [Rotor.charCoeffs, Rotor.dQ_dOm, Rotor.dQ_dPi, Rotor.kp_U, Rotor.ki_U,
    rChar, rEx, interp, rpm2radps, rad2deg]

/-- C2 counterexample: on `rEx` the float feedback is zero and both controller
gains are zero, yet `T(1) ≠ i·1·dT/dU` (the `dT/dΩ`-coupling term through the
uncontrolled drivetrain response survives), and correspondingly `a(1) ≠ 0`,
`b(1) ≠ dT/dU`. -/
theorem open_loop_reduction_fails :
    rEx.k_float = 0 ∧ rEx.kp_U = 0 ∧ rEx.ki_U = 0 ∧ (1:ℚ) ∈ rEx.w ∧ (0:ℚ) < 1 ∧
    rEx.Tc 1 ≠ Iq * Cq.ofRat 1 * Cq.ofRat rEx.dT_dU ∧
    rEx.a_aer 1 ≠ 0 ∧ rEx.b_aer 1 ≠ rEx.dT_dU := by
  have hT : rEx.Tc 1 = ⟨1/2, 1/2⟩ := by
    apply Cq.ext2 <;>
      norm_num [Rotor.Tc, Rotor.Cc, Rotor.Dc, Rotor.dT_dU, Rotor.dT_dOm,
        Rotor.dT_dPi, Rotor.dQ_dU, Rotor.dQ_dOm, Rotor.dQ_dPi, Rotor.kp_U,
        Rotor.ki_U, rEx, interp, rpm2radps, rad2deg, Hhub]
  have hU : rEx.dT_dU = 1 := by norm_num [Rotor.dT_dU, rEx, interp]
  refine ⟨rfl, by norm_num [Rotor.kp_U, rEx, interp],
    by norm_num [Rotor.ki_U, rEx, interp], by simp [rEx], by norm_num, ?_, ?_, ?_⟩
  · rw [hT, hU]
    intro h
    have h2 := congrArg Cq.re h
    simp at h2
  · have ha : rEx.a_aer 1 = -(1/2) := by
      rw [Rotor.a_aer, hT]
      norm_num
    rw [ha]
    norm_num
  · have hb : rEx.b_aer 1 = 1/2 := by
      rw [Rotor.b_aer, hT]
      norm_num
    rw [hb, hU]
    norm_num

/-- C2 (amended): with `k_float = 0`, zero gains, and additionally a vanishing
coupling product `dT/dΩ · dQ/dU = 0`, the aero load response reduces to
`T(ω) = i·ω·dT/dU` exactly, and for `ω > 0` the entries become `a(ω) = 0` and
`b(ω) = dT/dU`. -/
theorem open_loop_reduction_with_decoupling (r : Rotor) (ω : ℚ)
    (hkf : r.k_float = 0) (hkp : r.kp_U = 0) (hki : r.ki_U = 0)
    (hdec : r.dT_dOm * r.dQ_dU = 0) :
    r.Tc ω = Iq * Cq.ofRat ω * Cq.ofRat r.dT_dU ∧
    (0 < ω → r.a_aer ω = 0 ∧ r.b_aer ω = r.dT_dU) := by
  have hT : r.Tc ω = Iq * Cq.ofRat ω * Cq.ofRat r.dT_dU := by
    rcases mul_eq_zero.mp hdec with h | h
    · apply Cq.ext2 <;> simp [Rotor.Tc, hkf, hkp, hki, h] <;> ring
    · apply Cq.ext2 <;> simp [Rotor.Tc, Rotor.Cc, hkf, hkp, hki, h] <;> ring
  refine ⟨hT, fun hω => ⟨?_, ?_⟩⟩
  · rw [Rotor.a_aer, hT]
    simp
  · rw [Rotor.b_aer, hT]
    have hne : ω ≠ 0 := ne_of_gt hω
    field_simp

/-- Witness for the amended C2 at `rOpen` (`dT/dΩ = 0`), frequency 1. -/
theorem open_loop_reduction_with_decoupling_witness :
    (rOpen.k_float = 0 ∧ rOpen.kp_U = 0 ∧ rOpen.ki_U = 0 ∧
      rOpen.dT_dOm * rOpen.dQ_dU = 0) ∧
    (rOpen.Tc 1 = Iq * Cq.ofRat 1 * Cq.ofRat rOpen.dT_dU ∧
      ((0:ℚ) < 1 → rOpen.a_aer 1 = 0 ∧ rOpen.b_aer 1 = rOpen.dT_dU)) :=
  ⟨⟨rfl, by norm_num [Rotor.kp_U, rOpen, rEx, interp],
      by norm_num [Rotor.ki_U, rOpen, rEx, interp],
      by norm_num [Rotor.dT_dOm, rOpen, rEx, interp, rpm2radps]⟩,
    open_loop_reduction_with_decoupling rOpen 1 rfl
      (by norm_num [Rotor.kp_U, rOpen, rEx, interp])
      (by norm_num [Rotor.ki_U, rOpen, rEx, interp])
      (by norm_num [Rotor.dT_dOm, rOpen, rEx, interp, rpm2radps])⟩

/-- C8 counterexample: `rSing` has an all-positive frequency array, yet the
transfer-function denominator vanishes at its frequency `ω = 1`
(`D(1) = 1·1² + 0·i + 1·(−1) = 0`), so the loop body divides by zero there. -/
theorem servo_denominator_vanishes :
    (∀ x ∈ rSing.w, (0:ℚ) < x) ∧ (1:ℚ) ∈ rSing.w ∧ rSing.Dc 1 = 0 ∧
    rSing.servoEntryFinite 1 = false := by
  have hD : rSing.Dc 1 = ⟨0, 0⟩ := by
    apply Cq.ext2 <;>
      norm_num [Rotor.Dc, Rotor.dQ_dOm, Rotor.dQ_dPi, Rotor.kp_U, Rotor.ki_U,
        rSing, rEx, interp, rpm2radps, rad2deg]
  refine ⟨by norm_num [rSing, rEx], by simp [rSing, rEx], hD, ?_⟩
  simp [Rotor.servoEntryFinite, hD]
  rfl

/-- C8 (amended): under the physical nondegeneracy conditions
`I_drivetrain > 0` and `Ki·dQ/dθ ≥ 0`, the denominator `D(ω)` is nonzero for
every `ω > 0` and the loop body performs no division by zero, so the returned
entries are finite. -/
theorem servo_denominator_nonzero_of_inertia (r : Rotor) (ω : ℚ)
    (hω : 0 < ω) (hI : 0 < r.I_drivetrain) (hki : 0 ≤ r.ki_U * r.dQ_dPi) :
    r.Dc ω ≠ 0 ∧ r.servoEntryFinite ω = true := by
  have hre : (r.Dc ω).re = r.I_drivetrain * ω ^ 2 + r.ki_U * r.dQ_dPi := by
    simp [Rotor.Dc]
  have hpos : 0 < (r.Dc ω).re := by
    rw [hre]
    exact add_pos_of_pos_of_nonneg (mul_pos hI (pow_pos hω 2)) hki
  have hne : r.Dc ω ≠ 0 := by
    intro h
    rw [h] at hpos
    simp at hpos
  refine ⟨hne, ?_⟩
  simp only [Rotor.servoEntryFinite, Bool.and_eq_true, decide_eq_true_eq]
  exact ⟨ne_of_gt hω, hne⟩

/-- Witness for the amended C8 at `rEx`, frequency 1. -/
theorem servo_denominator_nonzero_of_inertia_witness :
    ((0:ℚ) < 1 ∧ 0 < rEx.I_drivetrain ∧ 0 ≤ rEx.ki_U * rEx.dQ_dPi) ∧
    (rEx.Dc 1 ≠ 0 ∧ rEx.servoEntryFinite 1 = true) :=
  ⟨⟨by norm_num, by norm_num [rEx],
      by norm_num [Rotor.ki_U, Rotor.dQ_dPi, rEx, interp, rad2deg]⟩,
    servo_denominator_nonzero_of_inertia rEx 1 (by norm_num) (by norm_num [rEx])
      (by norm_num [Rotor.ki_U, Rotor.dQ_dPi, rEx, interp, rad2deg])⟩

/-- C9 counterexample: `rZeroW` has a zero entry in its frequency array, yet
the call is not rejected — both returned arrays still have one entry per
frequency, and the zero-frequency loop-body evaluation divides by zero
(silently non-finite under IEEE arithmetic), instead of an up-front fault. -/
theorem zero_frequency_not_rejected :
    (0:ℚ) ∈ rZeroW.w ∧
    (rZeroW.calcAeroServoContributions 0 []).1.length = rZeroW.w.length ∧
    (rZeroW.calcAeroServoContributions 0 []).2.length = rZeroW.w.length ∧
    rZeroW.servoEntryFinite 0 = false := by
  refine ⟨by simp [rZeroW, rEx], by simp [Rotor.calcAeroServoContributions],
    by simp [Rotor.calcAeroServoContributions], ?_⟩
  simp [Rotor.servoEntryFinite]

/-- C9 (amended): a zero frequency entry is not rejected up front: the
per-frequency evaluation still runs over the whole array, and at the zero
entry it divides by zero, silently producing a non-finite value in IEEE
arithmetic; establishing `ω > 0` is the caller's responsibility. -/
theorem zero_frequency_silently_nonfinite (r : Rotor) (nw : ℕ) (amp : List ℚ)
    (h0 : (0:ℚ) ∈ r.w) :
    (r.calcAeroServoContributions nw amp).1.length = r.w.length ∧
    (r.calcAeroServoContributions nw amp).2.length = r.w.length ∧
    r.servoEntryFinite 0 = false := by
  refine ⟨by simp [Rotor.calcAeroServoContributions],
    by simp [Rotor.calcAeroServoContributions], ?_⟩
  simp [Rotor.servoEntryFinite]

/-- Witness for the amended C9 at `rZeroW`. -/
theorem zero_frequency_silently_nonfinite_witness :
    ((0:ℚ) ∈ rZeroW.w) ∧
    ((rZeroW.calcAeroServoContributions 0 []).1.length = rZeroW.w.length ∧
     (rZeroW.calcAeroServoContributions 0 []).2.length = rZeroW.w.length ∧
     rZeroW.servoEntryFinite 0 = false) :=
  ⟨by simp [rZeroW, rEx],
    zero_frequency_silently_nonfinite rZeroW 0 [] (by simp [rZeroW, rEx])⟩

theorem getD_replicate_zero (n k : ℕ) : (List.replicate n (0:ℚ)).getD k 0 = 0 := by
  rw [List.getD_eq_getElem?_getD, List.getElem?_replicate]
  split <;> rfl

theorem zerosMat_entry (n i j : ℕ) :
    (((Rotor.zerosMat n).getD i []).getD j 0 : ℚ) = 0 := by
  rw [Rotor.zerosMat, List.getD_eq_getElem?_getD, List.getD_eq_getElem?_getD,
    List.getElem?_replicate]
  split
  · simp [getD_replicate_zero]
  · rfl

/-- C3: `calcAeroContributions` returns zero added-mass and stiffness matrices,
a damping matrix whose only nonzero entry is the surge–surge entry `[0,0]`
equal to `dT/dU` interpolated at the inflow wind speed, the steady 6-vector
assembled from the hub force and moment outputs, and a 6×nw excitation
spectrum whose row 0 entry `k` is `amplitude[k]·dT/dU` with all other rows
zero (with `nw = 0` giving a `[6, 0]`-shaped spectrum). -/
theorem aero_rigid_contributions (r : Rotor) (nw : ℕ) (amp : List ℚ)
    (hamp : amp.length = nw) (hF : r.outputs_Fhub.length = 3)
    (hM : r.outputs_Mhub.length = 3) :
    (∀ i j : ℕ, i < 6 → j < 6 →
      ((r.calcAeroContributions nw amp).1.getD i []).getD j 0 = 0) ∧
    (r.calcAeroContributions nw amp).1.length = 6 ∧
    (∀ i j : ℕ, i < 6 → j < 6 →
      ((r.calcAeroContributions nw amp).2.2.1.getD i []).getD j 0 = 0) ∧
    (r.calcAeroContributions nw amp).2.2.1.length = 6 ∧
    ((r.calcAeroContributions nw amp).2.1.getD 0 []).getD 0 0
      = interp Uinf r.Uhub r.J_T_Uhub ∧
    (∀ i j : ℕ, i < 6 → j < 6 → ¬(i = 0 ∧ j = 0) →
      ((r.calcAeroContributions nw amp).2.1.getD i []).getD j 0 = 0) ∧
    (r.calcAeroContributions nw amp).2.1.length = 6 ∧
    (r.calcAeroContributions nw amp).2.2.2.1 = r.outputs_Fhub ++ r.outputs_Mhub ∧
    (r.calcAeroContributions nw amp).2.2.2.1.length = 6 ∧
    (r.calcAeroContributions nw amp).2.2.2.2.length = 6 ∧
    (∀ row ∈ (r.calcAeroContributions nw amp).2.2.2.2, row.length = nw) ∧
    (∀ k : ℕ, k < nw →
      ((r.calcAeroContributions nw amp).2.2.2.2.getD 0 []).getD k 0
        = amp.getD k 0 * interp Uinf r.Uhub r.J_T_Uhub) ∧
    (∀ i k : ℕ, 1 ≤ i → i < 6 →
      ((r.calcAeroContributions nw amp).2.2.2.2.getD i []).getD k 0 = 0) := by
  refine ⟨?_, ?_, ?_, ?_, ?_, ?_, ?_, ?_, ?_, ?_, ?_, ?_, ?_⟩
  · intro i j _ _
    simpa [Rotor.calcAeroContributions] using zerosMat_entry 6 i j
  · simp [Rotor.calcAeroContributions, Rotor.zerosMat]
  · intro i j _ _
    simpa [Rotor.calcAeroContributions] using zerosMat_entry 6 i j
  · simp [Rotor.calcAeroContributions, Rotor.zerosMat]
  · simp [Rotor.calcAeroContributions]
  · intro i j hi hj hne
    simp only [Rotor.calcAeroContributions]
    interval_cases i <;> interval_cases j <;>
      simp_all [List.replicate_succ, getD_replicate_zero]
  · simp [Rotor.calcAeroContributions]
  · simp [Rotor.calcAeroContributions]
  · simp [Rotor.calcAeroContributions, hF, hM]
  · simp [Rotor.calcAeroContributions]
  · intro row hrow
    simp only [Rotor.calcAeroContributions, List.mem_cons] at hrow
    rcases hrow with h | h
    · subst h
      simp
    · rw [List.eq_of_mem_replicate h]
      simp
  · intro k hk
    have hk2 : k < (List.range nw).length := by simpa using hk
    simp [Rotor.calcAeroContributions, List.getElem?_eq_getElem hk2]
  · intro i k h1 h6
    simp only [Rotor.calcAeroContributions]
    interval_cases i <;> simp_all [List.replicate_succ, getD_replicate_zero]

/-- Witness for C3: the spec's end-to-end scenario, schedule `U = [10,14,18]`,
`dT/dU = [500,600,700]`, `nw = 2`, `amplitude = [1, 2]`. -/
theorem aero_rigid_contributions_witness :
    (([(1:ℚ), 2]).length = 2 ∧ rSched.outputs_Fhub.length = 3 ∧
      rSched.outputs_Mhub.length = 3 ∧
      interp Uinf rSched.Uhub rSched.J_T_Uhub = 600) ∧
    (((rSched.calcAeroContributions 2 [1, 2]).2.1.getD 0 []).getD 0 0
        = interp Uinf rSched.Uhub rSched.J_T_Uhub ∧
      (∀ k : ℕ, k < 2 →
        ((rSched.calcAeroContributions 2 [1, 2]).2.2.2.2.getD 0 []).getD k 0
          = ([(1:ℚ), 2]).getD k 0 * interp Uinf rSched.Uhub rSched.J_T_Uhub) ∧
      (rSched.calcAeroContributions 2 [1, 2]).2.2.2.1
        = rSched.outputs_Fhub ++ rSched.outputs_Mhub) :=
  ⟨⟨rfl, rfl, rfl, by norm_num [rSched, Uinf, interp]⟩,
    ⟨(aero_rigid_contributions rSched 2 [1, 2] rfl rfl rfl).2.2.2.2.1,
     (aero_rigid_contributions rSched 2 [1, 2] rfl rfl rfl).2.2.2.2.2.2.2.2.2.2.2.1,
     (aero_rigid_contributions rSched 2 [1, 2] rfl rfl rfl).2.2.2.2.2.2.2.1⟩⟩

/-- C4: when the target wind speed lies strictly below (respectively above)
the whole operating schedule, every interpolation performed by
`calcAeroServoContributions` — the six load derivatives and the two gains —
clamps to the first (respectively last) schedule entry, after the unit
conversions and the sign flip, instead of extrapolating. -/
theorem servo_interpolations_clamp (r : Rotor)
    (hsort : List.Pairwise (· < ·) r.Uhub) (hne : r.Uhub ≠ [])
    (h1 : r.J_T_Uhub.length = r.Uhub.length)
    (h2 : r.J_T_Omega_rpm.length = r.Uhub.length)
    (h3 : r.J_T_pitch_deg.length = r.Uhub.length)
    (h4 : r.J_Q_Uhub.length = r.Uhub.length)
    (h5 : r.J_Q_Omega_rpm.length = r.Uhub.length)
    (h6 : r.J_Q_pitch_deg.length = r.Uhub.length)
    (h7 : r.kp_0.length = r.Uhub.length)
    (h8 : r.ki_0.length = r.Uhub.length) :
    (r.V < r.Uhub.headD 0 →
      r.dT_dU = r.J_T_Uhub.headD 0 ∧
      r.dT_dOm = r.J_T_Omega_rpm.headD 0 / rpm2radps ∧
      r.dT_dPi = r.J_T_pitch_deg.headD 0 * rad2deg ∧
      r.dQ_dU = r.J_Q_Uhub.headD 0 ∧
      r.dQ_dOm = r.J_Q_Omega_rpm.headD 0 / rpm2radps ∧
      r.dQ_dPi = r.J_Q_pitch_deg.headD 0 * rad2deg ∧
      r.kp_U = -r.kp_0.headD 0 ∧ r.ki_U = -r.ki_0.headD 0) ∧
    (r.Uhub.getLastD 0 < r.V →
      r.dT_dU = r.J_T_Uhub.getLastD 0 ∧
      r.dT_dOm = r.J_T_Omega_rpm.getLastD 0 / rpm2radps ∧
      r.dT_dPi = r.J_T_pitch_deg.getLastD 0 * rad2deg ∧
      r.dQ_dU = r.J_Q_Uhub.getLastD 0 ∧
      r.dQ_dOm = r.J_Q_Omega_rpm.getLastD 0 / rpm2radps ∧
      r.dQ_dPi = r.J_Q_pitch_deg.getLastD 0 * rad2deg ∧
      r.kp_U = -r.kp_0.getLastD 0 ∧ r.ki_U = -r.ki_0.getLastD 0) := by
  constructor
  · intro hlow
    obtain ⟨u, us, hu⟩ := List.exists_cons_of_ne_nil hne
    have hmem : ∀ y ∈ r.Uhub, r.V < y := by
      intro y hy
      refine lt_of_lt_of_le hlow ?_
      rw [hu] at hy ⊢
      exact sorted_head_le u us (hu ▸ hsort) y hy
    exact ⟨by rw [Rotor.dT_dU, interp_of_below r.V r.Uhub r.J_T_Uhub h1 hne hmem],
      by rw [Rotor.dT_dOm, interp_of_below r.V r.Uhub r.J_T_Omega_rpm h2 hne hmem],
      by rw [Rotor.dT_dPi, interp_of_below r.V r.Uhub r.J_T_pitch_deg h3 hne hmem],
      by rw [Rotor.dQ_dU, interp_of_below r.V r.Uhub r.J_Q_Uhub h4 hne hmem],
      by rw [Rotor.dQ_dOm, interp_of_below r.V r.Uhub r.J_Q_Omega_rpm h5 hne hmem],
      by rw [Rotor.dQ_dPi, interp_of_below r.V r.Uhub r.J_Q_pitch_deg h6 hne hmem],
      by rw [Rotor.kp_U, interp_of_below r.V r.Uhub r.kp_0 h7 hne hmem],
      by rw [Rotor.ki_U, interp_of_below r.V r.Uhub r.ki_0 h8 hne hmem]⟩
  · intro hhigh
    have hmem : ∀ y ∈ r.Uhub, y < r.V :=
      fun y hy => lt_of_le_of_lt (sorted_le_getLastD r.Uhub hsort y hy) hhigh
    exact ⟨by rw [Rotor.dT_dU, interp_of_above r.V r.Uhub r.J_T_Uhub h1 hne hmem],
      by rw [Rotor.dT_dOm, interp_of_above r.V r.Uhub r.J_T_Omega_rpm h2 hne hmem],
      by rw [Rotor.dT_dPi, interp_of_above r.V r.Uhub r.J_T_pitch_deg h3 hne hmem],
      by rw [Rotor.dQ_dU, interp_of_above r.V r.Uhub r.J_Q_Uhub h4 hne hmem],
      by rw [Rotor.dQ_dOm, interp_of_above r.V r.Uhub r.J_Q_Omega_rpm h5 hne hmem],
      by rw [Rotor.dQ_dPi, interp_of_above r.V r.Uhub r.J_Q_pitch_deg h6 hne hmem],
      by rw [Rotor.kp_U, interp_of_above r.V r.Uhub r.kp_0 h7 hne hmem],
      by rw [Rotor.ki_U, interp_of_above r.V r.Uhub r.ki_0 h8 hne hmem]⟩

/-- Witness for C4 at `rSched` (`V = 5`, below the schedule `[10, 14, 18]`),
checking the clamped `dT/dU`. -/
theorem servo_interpolations_clamp_witness :
    (List.Pairwise (· < ·) rSched.Uhub ∧ rSched.Uhub ≠ [] ∧
      rSched.J_T_Uhub.length = rSched.Uhub.length ∧
      rSched.V < rSched.Uhub.headD 0) ∧
    (rSched.V < rSched.Uhub.headD 0 →
      rSched.dT_dU = rSched.J_T_Uhub.headD 0 ∧
      rSched.dT_dOm = rSched.J_T_Omega_rpm.headD 0 / rpm2radps ∧
      rSched.dT_dPi = rSched.J_T_pitch_deg.headD 0 * rad2deg ∧
      rSched.dQ_dU = rSched.J_Q_Uhub.headD 0 ∧
      rSched.dQ_dOm = rSched.J_Q_Omega_rpm.headD 0 / rpm2radps ∧
      rSched.dQ_dPi = rSched.J_Q_pitch_deg.headD 0 * rad2deg ∧
      rSched.kp_U = -rSched.kp_0.headD 0 ∧ rSched.ki_U = -rSched.ki_0.headD 0) :=
  ⟨⟨by norm_num [rSched, List.pairwise_cons], by simp [rSched], rfl,
      by norm_num [rSched]⟩,
    (servo_interpolations_clamp rSched
      (by norm_num [rSched, List.pairwise_cons]) (by simp [rSched])
      rfl rfl rfl rfl rfl rfl rfl rfl).1⟩

/-- C5: interpolating at a target wind speed exactly equal to a schedule node
reproduces that node's table entry exactly (after unit conversion and sign
flip), for all six load derivatives and both gains. -/
theorem servo_interpolation_node_identity (r : Rotor)
    (hsort : List.Pairwise (· < ·) r.Uhub)
    (h1 : r.J_T_Uhub.length = r.Uhub.length)
    (h2 : r.J_T_Omega_rpm.length = r.Uhub.length)
    (h3 : r.J_T_pitch_deg.length = r.Uhub.length)
    (h4 : r.J_Q_Uhub.length = r.Uhub.length)
    (h5 : r.J_Q_Omega_rpm.length = r.Uhub.length)
    (h6 : r.J_Q_pitch_deg.length = r.Uhub.length)
    (h7 : r.kp_0.length = r.Uhub.length)
    (h8 : r.ki_0.length = r.Uhub.length)
    (j : ℕ) (hj : j < r.Uhub.length) (hV : r.V = r.Uhub.getD j 0) :
    r.dT_dU = r.J_T_Uhub.getD j 0 ∧
    r.dT_dOm = r.J_T_Omega_rpm.getD j 0 / rpm2radps ∧
    r.dT_dPi = r.J_T_pitch_deg.getD j 0 * rad2deg ∧
    r.dQ_dU = r.J_Q_Uhub.getD j 0 ∧
    r.dQ_dOm = r.J_Q_Omega_rpm.getD j 0 / rpm2radps ∧
    r.dQ_dPi = r.J_Q_pitch_deg.getD j 0 * rad2deg ∧
    r.kp_U = -r.kp_0.getD j 0 ∧ r.ki_U = -r.ki_0.getD j 0 :=
  ⟨by rw [Rotor.dT_dU, hV, interp_at_node_getD r.Uhub r.J_T_Uhub h1 hsort j hj],
    by rw [Rotor.dT_dOm, hV, interp_at_node_getD r.Uhub r.J_T_Omega_rpm h2 hsort j hj],
    by rw [Rotor.dT_dPi, hV, interp_at_node_getD r.Uhub r.J_T_pitch_deg h3 hsort j hj],
    by rw [Rotor.dQ_dU, hV, interp_at_node_getD r.Uhub r.J_Q_Uhub h4 hsort j hj],
    by rw [Rotor.dQ_dOm, hV, interp_at_node_getD r.Uhub r.J_Q_Omega_rpm h5 hsort j hj],
    by rw [Rotor.dQ_dPi, hV, interp_at_node_getD r.Uhub r.J_Q_pitch_deg h6 hsort j hj],
    by rw [Rotor.kp_U, hV, interp_at_node_getD r.Uhub r.kp_0 h7 hsort j hj],
    by rw [Rotor.ki_U, hV, interp_at_node_getD r.Uhub r.ki_0 h8 hsort j hj]⟩

/-- Witness for C5 at `rSchedAt` (`V = 14`, the middle node of `[10, 14, 18]`). -/
theorem servo_interpolation_node_identity_witness :
    (List.Pairwise (· < ·) rSchedAt.Uhub ∧ 1 < rSchedAt.Uhub.length ∧
      rSchedAt.V = rSchedAt.Uhub.getD 1 0) ∧
    (rSchedAt.dT_dU = rSchedAt.J_T_Uhub.getD 1 0 ∧
      rSchedAt.dT_dOm = rSchedAt.J_T_Omega_rpm.getD 1 0 / rpm2radps ∧
      rSchedAt.dT_dPi = rSchedAt.J_T_pitch_deg.getD 1 0 * rad2deg ∧
      rSchedAt.dQ_dU = rSchedAt.J_Q_Uhub.getD 1 0 ∧
      rSchedAt.dQ_dOm = rSchedAt.J_Q_Omega_rpm.getD 1 0 / rpm2radps ∧
      rSchedAt.dQ_dPi = rSchedAt.J_Q_pitch_deg.getD 1 0 * rad2deg ∧
      rSchedAt.kp_U = -rSchedAt.kp_0.getD 1 0 ∧
      rSchedAt.ki_U = -rSchedAt.ki_0.getD 1 0) :=
  ⟨⟨by norm_num [rSchedAt, rSched, List.pairwise_cons], by simp [rSchedAt, rSched],
      rfl⟩,
    servo_interpolation_node_identity rSchedAt
      (by norm_num [rSchedAt, rSched, List.pairwise_cons])
      rfl rfl rfl rfl rfl rfl rfl rfl 1 (by simp [rSchedAt, rSched]) rfl⟩

/-- C6: in scheduled-gain mode, `setControlGains` converts the gain-schedule
pitch angles to degrees and piecewise-linearly interpolates `Kp` and `Ki` at
each operating-schedule pitch value; at any schedule pitch value strictly
outside the converted table's domain the interpolated gains are exactly
zero (clamped to zero, not extrapolated and not clamped to the edge value). -/
theorem gain_schedule_clamps_to_zero (r : Rotor)
    (GS_Angles GS_Kp GS_Ki : List ℚ)
    (hkp : GS_Kp.length = GS_Angles.length)
    (hki : GS_Ki.length = GS_Angles.length)
    (j : ℕ) (hj : j < r.pitch_deg.length)
    (hout : (∀ y ∈ GS_Angles.map (fun a => a * rad2deg), r.pitch_deg.getD j 0 < y) ∨
            (∀ y ∈ GS_Angles.map (fun a => a * rad2deg), y < r.pitch_deg.getD j 0)) :
    (r.setControlGains15 GS_Angles GS_Kp GS_Ki).kp_0
      = r.pitch_deg.map
          (fun p => interpZ p (GS_Angles.map (fun a => a * rad2deg)) GS_Kp) ∧
    (r.setControlGains15 GS_Angles GS_Kp GS_Ki).ki_0
      = r.pitch_deg.map
          (fun p => interpZ p (GS_Angles.map (fun a => a * rad2deg)) GS_Ki) ∧
    (r.setControlGains15 GS_Angles GS_Kp GS_Ki).k_float = 9 ∧
    (r.setControlGains15 GS_Angles GS_Kp GS_Ki).kp_0.getD j 0 = 0 ∧
    (r.setControlGains15 GS_Angles GS_Kp GS_Ki).ki_0.getD j 0 = 0 := by
  have hmap : ∀ fp : List ℚ,
      (r.pitch_deg.map
        (fun p => interpZ p (GS_Angles.map (fun a => a * rad2deg)) fp)).getD j 0
      = interpZ (r.pitch_deg.getD j 0) (GS_Angles.map (fun a => a * rad2deg)) fp := by
    intro fp
    simp [List.getD_eq_getElem?_getD, List.getElem?_eq_getElem hj]
  refine ⟨rfl, rfl, rfl, ?_, ?_⟩
  · show (r.pitch_deg.map
        (fun p => interpZ p (GS_Angles.map (fun a => a * rad2deg)) GS_Kp)).getD j 0 = 0
    rw [hmap]
    rcases hout with h | h
    · exact interpZ_of_below _ _ _ h
    · exact interpZ_of_above _ _ _ h
  · show (r.pitch_deg.map
        (fun p => interpZ p (GS_Angles.map (fun a => a * rad2deg)) GS_Ki)).getD j 0 = 0
    rw [hmap]
    rcases hout with h | h
    · exact interpZ_of_below _ _ _ h
    · exact interpZ_of_above _ _ _ h

/-- Witness for C6 at `rSched` with gain-schedule angles `[0.1, 0.2]` rad
(converted domain about `[5.73, 11.46]` deg): schedule pitch 0 lies below it. -/
theorem gain_schedule_clamps_to_zero_witness :
    (([(7:ℚ), 8]).length = ([(1:ℚ)/10, 2/10]).length ∧
      ([(9:ℚ), 10]).length = ([(1:ℚ)/10, 2/10]).length ∧
      0 < rSched.pitch_deg.length ∧
      (∀ y ∈ ([(1:ℚ)/10, 2/10]).map (fun a => a * rad2deg),
        rSched.pitch_deg.getD 0 0 < y)) ∧
    ((rSched.setControlGains15 [1/10, 2/10] [7, 8] [9, 10]).kp_0.getD 0 0 = 0 ∧
     (rSched.setControlGains15 [1/10, 2/10] [7, 8] [9, 10]).ki_0.getD 0 0 = 0) :=
  ⟨⟨rfl, rfl, by simp [rSched], by norm_num [rSched, rad2deg]⟩,
    ⟨(gain_schedule_clamps_to_zero rSched [1/10, 2/10] [7, 8] [9, 10] rfl rfl 0
        (by simp [rSched]) (Or.inl (by norm_num [rSched, rad2deg]))).2.2.2.1,
     (gain_schedule_clamps_to_zero rSched [1/10, 2/10] [7, 8] [9, 10] rfl rfl 0
        (by simp [rSched]) (Or.inl (by norm_num [rSched, rad2deg]))).2.2.2.2⟩⟩
